import Mathlib

/-!
Shallow embedding of `unifi_poe_control.py` (UniFi PoE control script).

Python strings are modelled as Lean `String`; raw controller port records
(`device.port_table` entries, Python dicts) are modelled as structures with
`Option` fields (`none` = key absent); Python dicts keyed by port index are
modelled as association lists built with `dictInsert`, which mirrors Python
dict assignment (replace in place, else append), so that insertion order is
preserved exactly as in CPython 3.7+.  Functions that raise return `Except`.
-/

/-- Python `str.lower()` restricted to ASCII case mapping, which is all the
script's token comparisons use. -/
def pyLower (s : String) : String := ⟨s.data.map Char.toLower⟩

/-- One raw entry of `device.port_table`: a dict with optional keys
`port_idx`, `poe_mode`, `poe_enable`, `name`, `poe_caps`. -/
structure PortRec where
  port_idx : Option Int
  poe_mode : Option String
  poe_enable : Option Bool
  name : Option String
  poe_caps : Option Int
deriving DecidableEq

/-- The part of a controller device the script reads: its `port_table`
attribute.  `none` models a device whose `port_table` attribute is missing
or `None`. -/
structure Device where
  port_table : Option (List PortRec)
deriving DecidableEq

/-- The per-port snapshot built by `get_current_poe_status` (the dict stored
at `port_status[port_idx]`, lines 112-117). -/
structure PortStatus where
  name : String
  current_mode : String
  poe_enable : Bool
  poe_caps : Int
deriving DecidableEq

/-- Python dict assignment `d[k] = v` on an association list: if the key is
present its first binding is replaced in place, otherwise the pair is
appended, preserving CPython insertion order. -/
def dictInsert {β : Type} (d : List (Int × β)) (k : Int) (v : β) : List (Int × β) :=
  match d with
  | [] => [(k, v)]
  | (k', v') :: rest => if k' = k then (k, v) :: rest else (k', v') :: dictInsert rest k v

/-- The `PortStatus` dict value built for one matched port (lines 108-117),
with the Python `.get` defaults: mode `"unknown"`, name `"Port <idx>"`,
enable `False`, caps `0`. -/
def mkPortStatus (idx : Int) (p : PortRec) : PortStatus :=
  { name := p.name.getD ("Port " ++ toString idx)
  , current_mode := p.poe_mode.getD "unknown"
  , poe_enable := p.poe_enable.getD false
  , poe_caps := p.poe_caps.getD 0 }

/-- One iteration of the `for port in device.port_table` loop of
`get_current_poe_status` (lines 105-117): ports whose `port_idx` is in the
requested list are written into the status dict. -/
def statusStep (port_indexes : List Int) (acc : List (Int × PortStatus)) (p : PortRec) :
    List (Int × PortStatus) :=
  match p.port_idx with
  | none => acc
  | some idx => if idx ∈ port_indexes then dictInsert acc idx (mkPortStatus idx p) else acc

/-- `get_current_poe_status` (lines 98-119).  Raises `ValueError` when the
device has no `port_table` attribute or the table is empty
(`not device.port_table`), otherwise folds the table into the status dict. -/
def get_current_poe_status (device : Device) (port_indexes : List Int) :
    Except String (List (Int × PortStatus)) :=
  match device.port_table with
  | none => .error "Device does not have port table (not a switch?)"
  | some [] => .error "Device does not have port table (not a switch?)"
  | some tbl => .ok (tbl.foldl (statusStep port_indexes) [])

/-- The tokens recognized as "enable" by `determine_set_actions` (line 127). -/
def enableTokens : List String := ["on", "enable", "enabled", "true", "1"]

/-- The tokens recognized as "disable" by `determine_set_actions` (line 131). -/
def disableTokens : List String := ["off", "disable", "disabled", "false", "0"]

/-- `desired_state.lower()` is one of the enable tokens. -/
def isEnableTok (s : String) : Prop := pyLower s ∈ enableTokens

/-- `desired_state.lower()` is one of the disable tokens. -/
def isDisableTok (s : String) : Prop := pyLower s ∈ disableTokens

instance (s : String) : Decidable (isEnableTok s) := by
  unfold isEnableTok; infer_instance

instance (s : String) : Decidable (isDisableTok s) := by
  unfold isDisableTok; infer_instance

/-- The body of the `for port_idx, status in port_status.items()` loop of
`determine_set_actions` (lines 138-156): skip ports with `poe_caps == 0`,
skip ports already in the target state, otherwise emit
`(port_idx, target_mode, action_desc)`. -/
def emitAction (target_mode action_desc target_state : String) (entry : Int × PortStatus) :
    Option (Int × String × String) :=
  if entry.2.poe_caps = 0 then none
  else if (if entry.2.current_mode = "off" then "off" else "on") = target_state then none
  else some (entry.1, target_mode, action_desc)

/-- `determine_set_actions` (lines 122-158).  Normalizes the desired state
token via `.lower()`, raises `ValueError` for unrecognized tokens, then
emits one action per port that supports PoE and is not already in the
desired state, in dict iteration order. -/
def determine_set_actions (port_status : List (Int × PortStatus)) (desired_state : String) :
    Except String (List (Int × String × String)) :=
  if isEnableTok desired_state then
    .ok (port_status.filterMap (emitAction "auto" "enable" "on"))
  else if isDisableTok desired_state then
    .ok (port_status.filterMap (emitAction "off" "disable" "off"))
  else
    .error "Invalid desired state"

/-- The derived on/off state of a port (line 148): on iff
`current_mode != "off"`. -/
def derivedOn (st : PortStatus) : Bool := st.current_mode != "off"

/-- The desired on/off state: on exactly for the enable tokens. -/
def desiredOn (d : String) : Bool := decide (isEnableTok d)

/-- Python `s.split(sep)` for a single-character separator, keeping empty
pieces, modelled on the character list of the string. -/
def splitOnChar (sep : Char) : List Char → List (List Char)
  | [] => [[]]
  | c :: rest =>
    match splitOnChar sep rest with
    | [] => [[c]]
    | g :: gs => if c = sep then [] :: g :: gs else (c :: g) :: gs

/-- Python `str.strip()` with no argument: drop leading and trailing
whitespace. -/
def stripChars (l : List Char) : List Char :=
  ((l.dropWhile Char.isWhitespace).reverse.dropWhile Char.isWhitespace).reverse

/-- Validity of the character list after the first digit for Python
`int(...)`: digits with single underscores allowed only between digits. -/
def pyDigitsRest : List Char → Bool
  | [] => true
  | c :: rest =>
    if c = '_' then
      match rest with
      | [] => false
      | c2 :: rest2 => c2.isDigit && pyDigitsRest rest2
    else c.isDigit && pyDigitsRest rest

/-- A nonempty ASCII digit sequence acceptable to Python `int(...)` after
sign and whitespace removal (underscores only between digits). -/
def pyDigits (l : List Char) : Bool :=
  match l with
  | [] => false
  | c :: rest => c.isDigit && pyDigitsRest rest

/-- Numeric value of a digit-and-underscore character list. -/
def digitsVal (l : List Char) : Nat :=
  l.foldl (fun acc c => if c = '_' then acc else acc * 10 + (c.toNat - '0'.toNat)) 0

/-- Python `int(s)` for base 10 on ASCII input: strip whitespace, allow one
leading sign, then a digit sequence; `none` models a raised `ValueError`. -/
def pyIntOfChars (l : List Char) : Option Int :=
  match stripChars l with
  | '+' :: rest => if pyDigits rest then some (Int.ofNat (digitsVal rest)) else none
  | '-' :: rest => if pyDigits rest then some (-(Int.ofNat (digitsVal rest))) else none
  | t => if pyDigits t then some (Int.ofNat (digitsVal t)) else none

/-- Python `list(range(st, en + 1))`: the integers from `st` to `en`
inclusive, empty when `en < st`. -/
def pyRange (st en : Int) : List Int :=
  (List.range (en + 1 - st).toNat).map (fun k => st + k)

/-- One iteration of the token loop of `parse_port_indexes`
(lines 296-304): strip the token, treat tokens containing `'-'` as
inclusive ranges (exactly two dash-separated integer pieces), others as a
single integer; `none` models a raised `ValueError`. -/
def parsePartChars (part : List Char) : Option (List Int) :=
  let p := stripChars part
  if p.contains '-' then
    match splitOnChar '-' p with
    | [a, b] =>
      match pyIntOfChars a, pyIntOfChars b with
      | some s, some e => some (pyRange s e)
      | _, _ => none
    | _ => none
  else
    match pyIntOfChars p with
    | some n => some [n]
    | none => none

/-- The `ports` list accumulated over all comma-separated tokens
(lines 295-304); `none` when any token raises. -/
def collectPorts : List (List Char) → Option (List Int)
  | [] => some []
  | part :: rest =>
    match parsePartChars part, collectPorts rest with
    | some ns, some ms => some (ns ++ ms)
    | _, _ => none

/-- `parse_port_indexes` (lines 292-307): split on commas, parse each token
as an integer or inclusive range, then return
`sorted(list(set(ports)))` — the ascending list of the distinct collected
integers; any `ValueError` is re-raised as the invalid-port-spec error. -/
def parse_port_indexes (port_string : String) : Except String (List Int) :=
  match collectPorts (splitOnChar ',' port_string.data) with
  | some ports => .ok (List.insertionSort (· ≤ ·) ports.dedup)
  | none => .error "Invalid port specification"

/-- The device "has no port table": its `port_table` is missing or empty,
the condition `not hasattr(device, 'port_table') or not device.port_table`
of line 102 (an empty table is falsy in Python, hence counts as having no
port table). -/
def hasNoPortTable (device : Device) : Bool := device.port_table.getD [] = []

/-- Observable effects of one run of `main`, in order: acquiring and
closing the aiohttp session, blocking on the confirmation prompt
(`input(...)`, line 264), sending the batched set-PoE request
(lines 170-173), and the per-port verification log outcomes
(lines 218-221). -/
inductive Event where
  | sessionAcquired
  | sessionClosed
  | confirmPrompt
  | setPoeRequest (targets : List (Int × String))
  | verifyOk (port_idx : Int)
  | verifyWarn (port_idx : Int) (expected got : String)
deriving DecidableEq

/-- The external world `main` interacts with, fixed for one run: whether
`controller.login()` succeeds, the device found by MAC (`none` = not
found), the operator's confirmation answer, whether the set-PoE request
returns `rc == 'ok'` (transport failures folded in as `false`), and the
device snapshot seen by the verification re-read. -/
structure Env where
  loginOk : Bool
  device : Option Device
  userConfirms : Bool
  applyOk : Bool
  updatedDevice : Option Device
deriving DecidableEq

/-- `action_dict[port_idx]` of `verify_changes` (line 209): the dict
comprehension keyed by port index, where a later action for the same port
overwrites an earlier one, giving `(new_mode, action)`. -/
def actionFor (actions : List (Int × String × String)) (idx : Int) :
    Option (String × String) :=
  (actions.reverse.find? (fun a => a.1 == idx)).map (fun a => a.2)

/-- The check loop of `verify_changes` (lines 198-221): if the re-read
device is not found, return after logging; otherwise compare each acted-on
port's re-read mode with its expected mode, logging success or a warning.
On the aiounifi device object `port_table` always exists (a property
defaulting to the raw key), so a missing raw key reads as the empty
table. -/
def verifyEvents (updatedDevice : Option Device)
    (actions : List (Int × String × String)) : List Event :=
  match updatedDevice with
  | none => []
  | some dev =>
    (dev.port_table.getD []).filterMap (fun port =>
      match port.port_idx with
      | none => none
      | some idx =>
        match actionFor actions idx with
        | none => none
        | some (expected, _a) =>
          if port.poe_mode.getD "unknown" = expected then some (Event.verifyOk idx)
          else some (Event.verifyWarn idx expected (port.poe_mode.getD "unknown")))

/-- The apply-then-verify tail of `main` (lines 272-282): `set_poe_ports`
sends one batched request with the `(port_idx, mode)` targets; on success
`verify_changes` runs and `main` returns `True`, otherwise it returns
`False`. -/
def applyPhase (env : Env) (actions : List (Int × String × String))
    (pre : List Event) : Bool × List Event :=
  if env.applyOk then
    (true, pre ++ Event.setPoeRequest (actions.map (fun a => (a.1, a.2.1))) ::
      verifyEvents env.updatedDevice actions)
  else
    (false, pre ++ [Event.setPoeRequest (actions.map (fun a => (a.1, a.2.1)))])

/-- The body of `main` after a successful connect (lines 236-282), as a
result flag plus the emitted events.  Any raised exception is caught by
the `except` clause of line 284 and turns into `False`. -/
def mainBody (env : Env) (port_indexes : List Int) (desired_state : String)
    (yes : Bool) : Bool × List Event :=
  match env.device with
  | none => (false, [])
  | some device =>
    match get_current_poe_status device port_indexes with
    | .error _ => (false, [])
    | .ok current_status =>
      if current_status = [] then (false, [])
      else
        match determine_set_actions current_status desired_state with
        | .error _ => (false, [])
        | .ok actions =>
          if actions = [] then (true, [])
          else
            if yes then applyPhase env actions []
            else if env.userConfirms then applyPhase env actions [Event.confirmPrompt]
            else (false, [Event.confirmPrompt])

/-- `main` (lines 224-289).  `connect_to_controller` creates the aiohttp
session (line 47) before attempting login; `main` stores the session
handle only after `connect_to_controller` returns (line 233).  When login
fails, `connect_to_controller` raises, the local `session` is still
`None`, and the `finally` block of lines 287-289 closes nothing — the
acquired session is not released on that path.  When login succeeds, the
handle is stored and the `finally` block closes it on every exit path. -/
def runMain (env : Env) (port_indexes : List Int) (desired_state : String)
    (yes : Bool) : Bool × List Event :=
  if env.loginOk then
    let r := mainBody env port_indexes desired_state yes
    (r.1, Event.sessionAcquired :: (r.2 ++ [Event.sessionClosed]))
  else
    (false, [Event.sessionAcquired])

/-- The process exit code (lines 349-361): 0 when `main` returns `True`,
1 otherwise. -/
def scriptExitCode (env : Env) (port_indexes : List Int) (desired_state : String)
    (yes : Bool) : Nat :=
  if (runMain env port_indexes desired_state yes).1 then 0 else 1

lemma disable_not_enable (s : String) : s ∈ disableTokens → s ∉ enableTokens := by
  intro hd he
  simp only [disableTokens, enableTokens, List.mem_cons, List.not_mem_nil, or_false] at hd he
  rcases hd with h | h | h | h | h <;> subst h <;> revert he <;> decide

lemma emitAction_eq_some (tm ad ts : String) (e : Int × PortStatus) (i : Int) (m d : String) :
    emitAction tm ad ts e = some (i, m, d) ↔
      e.2.poe_caps ≠ 0 ∧ (if e.2.current_mode = "off" then "off" else "on") ≠ ts ∧
        i = e.1 ∧ m = tm ∧ d = ad := by
  unfold emitAction
  by_cases hc : e.2.poe_caps = 0
  · simp [hc]
  · by_cases hs : (if e.2.current_mode = "off" then "off" else "on") = ts
    · simp [hc, hs]
    · rw [if_neg hc, if_neg hs]
      constructor
      · intro h
        injection h with h1
        injection h1 with h1 h2
        injection h2 with h2 h3
        exact ⟨hc, hs, h1.symm, h2.symm, h3.symm⟩
      · rintro ⟨-, -, rfl, rfl, rfl⟩
        rfl

lemma state_ne_on (s : String) : ((if s = "off" then "off" else "on") ≠ "on") ↔ s = "off" := by
  by_cases h : s = "off"
  · rw [if_pos h]
    exact ⟨fun _ => h, fun _ => by decide⟩
  · rw [if_neg h]
    exact ⟨fun hx => absurd rfl hx, fun hx => absurd hx h⟩

lemma state_ne_off (s : String) : ((if s = "off" then "off" else "on") ≠ "off") ↔ s ≠ "off" := by
  by_cases h : s = "off"
  · rw [if_pos h]
    exact ⟨fun hx => absurd rfl hx, fun hx => absurd h hx⟩
  · rw [if_neg h]
    exact ⟨fun _ => h, fun _ => by decide⟩

lemma filterMap_emit_mem (ps : List (Int × PortStatus)) (tm ad ts : String)
    (i : Int) (m desc : String) :
    (i, m, desc) ∈ ps.filterMap (emitAction tm ad ts) ↔
      ∃ st, (i, st) ∈ ps ∧ st.poe_caps ≠ 0 ∧
        (if st.current_mode = "off" then "off" else "on") ≠ ts ∧ m = tm ∧ desc = ad := by
  rw [List.mem_filterMap]
  constructor
  · rintro ⟨⟨i', st⟩, hmem, hemit⟩
    rw [emitAction_eq_some] at hemit
    obtain ⟨h1, h2, rfl, rfl, rfl⟩ := hemit
    exact ⟨st, hmem, h1, h2, rfl, rfl⟩
  · rintro ⟨st, hmem, h1, h2, rfl, rfl⟩
    refine ⟨(i, st), hmem, ?_⟩
    rw [emitAction_eq_some]
    exact ⟨h1, h2, rfl, rfl, rfl⟩

/-- Claim C1: for every port-status map and recognized desired state,
`determine_set_actions` succeeds, and it emits an action for a port exactly
when that port's `poe_caps` is nonzero and its derived on/off state
(on iff `current_mode != "off"`) differs from the desired on/off state;
every emitted action's target mode is `"auto"` for Enable and `"off"` for
Disable, so in particular a port with `poe_caps = 0` never appears in the
output. -/
theorem determine_set_actions_action_iff
    (ps : List (Int × PortStatus)) (d : String)
    (h : isEnableTok d ∨ isDisableTok d) :
    ∃ acts, determine_set_actions ps d = .ok acts ∧
      ∀ i m desc, (i, m, desc) ∈ acts ↔
        ∃ st, (i, st) ∈ ps ∧ st.poe_caps ≠ 0 ∧ derivedOn st ≠ desiredOn d ∧
          m = (if isEnableTok d then "auto" else "off") ∧
          desc = (if isEnableTok d then "enable" else "disable") := by
  rcases h with he | hd
  · have hon : desiredOn d = true := by simp [desiredOn, he]
    refine ⟨_, by rw [determine_set_actions, if_pos he], fun i m desc => ?_⟩
    rw [filterMap_emit_mem]
    apply exists_congr
    intro st
    have hcond : ((if st.current_mode = "off" then "off" else "on") ≠ "on") ↔
        (derivedOn st ≠ desiredOn d) := by
      rw [state_ne_on, hon]
      simp [derivedOn]
    rw [hcond]
    simp only [if_pos he]
  · have hne : ¬ isEnableTok d := disable_not_enable (pyLower d) hd
    have hon : desiredOn d = false := by simp [desiredOn, hne]
    refine ⟨_, by rw [determine_set_actions, if_neg hne, if_pos hd], fun i m desc => ?_⟩
    rw [filterMap_emit_mem]
    apply exists_congr
    intro st
    have hcond : ((if st.current_mode = "off" then "off" else "on") ≠ "off") ↔
        (derivedOn st ≠ desiredOn d) := by
      rw [state_ne_off, hon]
      simp [derivedOn]
    rw [hcond]
    simp only [if_neg hne]

/-- Witness for C1 at the §8 scenario: ports 1 ("off", caps 1),
2 ("auto", caps 1), 3 (caps 0), desired state `"on"`. -/
theorem determine_set_actions_action_iff_witness :
    ∃ acts,
      determine_set_actions
        [(1, ⟨"P1", "off", false, 1⟩), (2, ⟨"P2", "auto", true, 1⟩),
         (3, ⟨"P3", "auto", false, 0⟩)] "on" = .ok acts ∧
      ∀ i m desc, (i, m, desc) ∈ acts ↔
        ∃ st, (i, st) ∈
            [(1, ⟨"P1", "off", false, 1⟩), (2, ⟨"P2", "auto", true, 1⟩),
             (3, ⟨"P3", "auto", false, 0⟩)] ∧
          st.poe_caps ≠ 0 ∧ derivedOn st ≠ desiredOn "on" ∧
          m = (if isEnableTok "on" then "auto" else "off") ∧
          desc = (if isEnableTok "on" then "enable" else "disable") :=
  determine_set_actions_action_iff _ "on" (Or.inl (by decide))

/-- Claim C2: the desired-state token is normalized case-insensitively; a
token whose lowercase form is an enable token yields actions with target
mode `"auto"`, a disable token yields `"off"`, and any other token raises
the invalid-state error before any action is produced (for every
port-status map). -/
theorem determine_set_actions_token_cases
    (ps : List (Int × PortStatus)) (d : String) :
    (isEnableTok d → ∃ acts, determine_set_actions ps d = .ok acts ∧
        ∀ a ∈ acts, a.2.1 = "auto") ∧
    (isDisableTok d → ∃ acts, determine_set_actions ps d = .ok acts ∧
        ∀ a ∈ acts, a.2.1 = "off") ∧
    (¬ isEnableTok d → ¬ isDisableTok d →
        determine_set_actions ps d = .error "Invalid desired state") := by
  refine ⟨fun he => ?_, fun hd => ?_, fun hne hnd => ?_⟩
  · refine ⟨_, by rw [determine_set_actions, if_pos he], ?_⟩
    rintro ⟨i, m, desc⟩ hmem
    rw [filterMap_emit_mem] at hmem
    obtain ⟨st, -, -, -, rfl, -⟩ := hmem
    rfl
  · have hne : ¬ isEnableTok d := disable_not_enable (pyLower d) hd
    refine ⟨_, by rw [determine_set_actions, if_neg hne, if_pos hd], ?_⟩
    rintro ⟨i, m, desc⟩ hmem
    rw [filterMap_emit_mem] at hmem
    obtain ⟨st, -, -, -, rfl, -⟩ := hmem
    rfl
  · rw [determine_set_actions, if_neg hne, if_neg hnd]

/-- Witness for C2: the upper-case token `"TRUE"` resolves to Enable and the
unrecognized token `"banana"` raises the invalid-state error. -/
theorem determine_set_actions_token_cases_witness :
    (∃ acts, determine_set_actions [] "TRUE" = .ok acts ∧
        ∀ a ∈ acts, a.2.1 = "auto") ∧
    determine_set_actions [] "banana" = .error "Invalid desired state" :=
  ⟨(determine_set_actions_token_cases [] "TRUE").1 (by decide),
   (determine_set_actions_token_cases [] "banana").2.2 (by decide) (by decide)⟩

lemma collectPorts_mem (parts : List (List Char)) : ∀ ns, collectPorts parts = some ns →
    ∀ n, (n ∈ ns ↔ ∃ part ∈ parts, ∃ ms, parsePartChars part = some ms ∧ n ∈ ms) := by
  induction parts with
  | nil =>
    intro ns h n
    simp only [collectPorts, Option.some.injEq] at h
    subst h
    simp
  | cons p rest ih =>
    intro ns h n
    simp only [collectPorts] at h
    cases hp : parsePartChars p with
    | none => rw [hp] at h; simp at h
    | some ms =>
      rw [hp] at h
      cases hr : collectPorts rest with
      | none => rw [hr] at h; simp at h
      | some ks =>
        rw [hr] at h
        simp only [Option.some.injEq] at h
        subst h
        simp only [List.mem_append, List.mem_cons]
        rw [ih ks hr n]
        constructor
        · rintro (hn | ⟨part, hpart, ms2, hms2, hn⟩)
          · exact ⟨p, Or.inl rfl, ms, hp, hn⟩
          · exact ⟨part, Or.inr hpart, ms2, hms2, hn⟩
        · rintro ⟨part, hpart | hpart, ms2, hms2, hn⟩
          · subst hpart
            rw [hp, Option.some.injEq] at hms2
            subst hms2
            exact Or.inl hn
          · exact Or.inr ⟨part, hpart, ms2, hms2, hn⟩

lemma parse_ok_sorted (s : String) (l : List Int) (h : parse_port_indexes s = .ok l) :
    l.Sorted (· < ·) := by
  unfold parse_port_indexes at h
  cases hc : collectPorts (splitOnChar ',' s.data) with
  | none => rw [hc] at h; simp at h
  | some ports =>
    rw [hc] at h
    simp only [Except.ok.injEq] at h
    subst h
    have hs : List.Sorted (· ≤ ·) (List.insertionSort (· ≤ ·) ports.dedup) :=
      List.sorted_insertionSort (· ≤ ·) ports.dedup
    have hnd : (List.insertionSort (· ≤ ·) ports.dedup).Nodup :=
      (List.perm_insertionSort (· ≤ ·) ports.dedup).nodup_iff.mpr (List.nodup_dedup ports)
    exact hs.lt_of_le hnd

lemma parse_ok_mem (s : String) (l : List Int) (h : parse_port_indexes s = .ok l) (n : Int) :
    n ∈ l ↔ ∃ part ∈ splitOnChar ',' s.data, ∃ ms, parsePartChars part = some ms ∧ n ∈ ms := by
  unfold parse_port_indexes at h
  cases hc : collectPorts (splitOnChar ',' s.data) with
  | none => rw [hc] at h; simp at h
  | some ports =>
    rw [hc] at h
    simp only [Except.ok.injEq] at h
    subst h
    rw [(List.perm_insertionSort (· ≤ ·) ports.dedup).mem_iff, List.mem_dedup]
    exact collectPorts_mem _ ports hc n

/-- Claim C3: `parse_port_indexes` maps a comma-separated string of single
integers and inclusive ranges to the deduplicated ascending-sorted list of
the denoted integers (the spec's four examples hold literally), raises the
parse error on malformed tokens such as `"a-b"` and `"x"`, and in general
every successful result is strictly sorted (hence sorted ascending and
duplicate-free) and contains exactly the integers denoted by the parsed
tokens. -/
theorem parse_port_indexes_behavior :
    parse_port_indexes "1,2,3" = .ok [1, 2, 3] ∧
    parse_port_indexes "1-4" = .ok [1, 2, 3, 4] ∧
    parse_port_indexes "5,10-12" = .ok [5, 10, 11, 12] ∧
    parse_port_indexes "2,1,2" = .ok [1, 2] ∧
    parse_port_indexes "a-b" = .error "Invalid port specification" ∧
    parse_port_indexes "x" = .error "Invalid port specification" ∧
    ∀ s l, parse_port_indexes s = .ok l →
      l.Sorted (· < ·) ∧
      ∀ n, (n ∈ l ↔
        ∃ part ∈ splitOnChar ',' s.data, ∃ ms, parsePartChars part = some ms ∧ n ∈ ms) :=
  ⟨rfl, rfl, rfl, rfl, rfl, rfl, fun s l h => ⟨parse_ok_sorted s l h, parse_ok_mem s l h⟩⟩

/-- Witness for C3's general conjunct at the input `"2,1,2"`. -/
theorem parse_port_indexes_behavior_witness :
    List.Sorted (· < ·) ([1, 2] : List Int) ∧
    ∀ n : Int, (n ∈ ([1, 2] : List Int) ↔
      ∃ part ∈ splitOnChar ',' ("2,1,2").data, ∃ ms, parsePartChars part = some ms ∧ n ∈ ms) :=
  parse_port_indexes_behavior.2.2.2.2.2.2 "2,1,2" [1, 2] (by rfl)

/-- Claim C10: a reversed range token such as `"5-1"` is not a parse error;
`range(start, end + 1)` is empty whenever the start exceeds the end, so an
input consisting only of such a token yields the empty list. -/
theorem parse_port_indexes_reversed_range :
    parse_port_indexes "5-1" = .ok [] ∧ ∀ a b : Int, b < a → pyRange a b = [] := by
  refine ⟨rfl, fun a b h => ?_⟩
  unfold pyRange
  have hz : (b + 1 - a).toNat = 0 := by omega
  rw [hz]
  rfl

/-- Witness for C10 at the reversed range 5-1. -/
theorem parse_port_indexes_reversed_range_witness :
    parse_port_indexes "5-1" = .ok [] ∧ pyRange 5 1 = [] :=
  ⟨parse_port_indexes_reversed_range.1, parse_port_indexes_reversed_range.2 5 1 (by decide)⟩

lemma dictInsert_mem {β : Type} (d : List (Int × β)) (k : Int) (v : β) (i : Int) :
    (∃ st, (i, st) ∈ dictInsert d k v) ↔ (i = k ∨ ∃ st, (i, st) ∈ d) := by
  induction d with
  | nil => simp [dictInsert]
  | cons e rest ih =>
    obtain ⟨k2, v2⟩ := e
    by_cases hk : k2 = k
    · subst hk
      unfold dictInsert
      rw [if_pos rfl]
      simp only [List.mem_cons, Prod.mk.injEq]
      constructor
      · rintro ⟨st, ⟨rfl, rfl⟩ | hst⟩
        · exact Or.inl rfl
        · exact Or.inr ⟨st, Or.inr hst⟩
      · rintro (rfl | ⟨st, ⟨rfl, rfl⟩ | hst⟩)
        · exact ⟨v, Or.inl ⟨rfl, rfl⟩⟩
        · exact ⟨v, Or.inl ⟨rfl, rfl⟩⟩
        · exact ⟨st, Or.inr hst⟩
    · unfold dictInsert
      rw [if_neg hk]
      simp only [List.mem_cons, Prod.mk.injEq]
      constructor
      · rintro ⟨st, ⟨rfl, rfl⟩ | hst⟩
        · exact Or.inr ⟨st, Or.inl ⟨rfl, rfl⟩⟩
        · rcases ih.mp ⟨st, hst⟩ with h | ⟨st2, hst2⟩
          · exact Or.inl h
          · exact Or.inr ⟨st2, Or.inr hst2⟩
      · rintro (rfl | ⟨st, ⟨rfl, rfl⟩ | hst⟩)
        · obtain ⟨st, hst⟩ := ih.mpr (Or.inl rfl)
          exact ⟨st, Or.inr hst⟩
        · exact ⟨st, Or.inl ⟨rfl, rfl⟩⟩
        · obtain ⟨st2, hst2⟩ := ih.mpr (Or.inr ⟨st, hst⟩)
          exact ⟨st2, Or.inr hst2⟩

lemma statusStep_mem (idxs : List Int) (acc : List (Int × PortStatus)) (p : PortRec)
    (i : Int) :
    (∃ st, (i, st) ∈ statusStep idxs acc p) ↔
      ((∃ st, (i, st) ∈ acc) ∨ (i ∈ idxs ∧ p.port_idx = some i)) := by
  cases hp : p.port_idx with
  | none => simp [statusStep, hp]
  | some idx =>
    simp only [statusStep, hp]
    by_cases hin : idx ∈ idxs
    · rw [if_pos hin, dictInsert_mem]
      constructor
      · rintro (rfl | h)
        · exact Or.inr ⟨hin, rfl⟩
        · exact Or.inl h
      · rintro (h | ⟨hi, heq⟩)
        · exact Or.inr h
        · injection heq with heq
          exact Or.inl heq.symm
    · rw [if_neg hin]
      constructor
      · exact Or.inl
      · rintro (h | ⟨hi, heq⟩)
        · exact h
        · injection heq with heq
          subst heq
          exact absurd hi hin

lemma statusFold_mem (tbl : List PortRec) (idxs : List Int) :
    ∀ acc (i : Int),
      (∃ st, (i, st) ∈ tbl.foldl (statusStep idxs) acc) ↔
        ((∃ st, (i, st) ∈ acc) ∨ (i ∈ idxs ∧ ∃ p ∈ tbl, p.port_idx = some i)) := by
  induction tbl with
  | nil => simp
  | cons p rest ih =>
    intro acc i
    rw [List.foldl_cons, ih, statusStep_mem]
    constructor
    · rintro ((h | ⟨hi, hp⟩) | ⟨hi, q, hq, hqi⟩)
      · exact Or.inl h
      · exact Or.inr ⟨hi, p, List.mem_cons_self p rest, hp⟩
      · exact Or.inr ⟨hi, q, List.mem_cons_of_mem p hq, hqi⟩
    · rintro (h | ⟨hi, q, hq, hqi⟩)
      · exact Or.inl (Or.inl h)
      · rcases List.mem_cons.mp hq with rfl | hq2
        · exact Or.inl (Or.inr ⟨hi, hqi⟩)
        · exact Or.inr ⟨hi, q, hq2, hqi⟩

/-- Claim C4: `get_current_poe_status` raises exactly when the device has
no port table (missing or empty `port_table`); otherwise it returns a
status map whose keys are exactly the requested port indexes that occur as
some table entry's `port_idx`, so requested indexes absent from the port
table are omitted without raising. -/
theorem get_current_poe_status_keys (device : Device) (idxs : List Int) :
    (hasNoPortTable device = true →
      get_current_poe_status device idxs =
        .error "Device does not have port table (not a switch?)") ∧
    (hasNoPortTable device = false →
      ∃ res, get_current_poe_status device idxs = .ok res ∧
        ∀ i, ((∃ st, (i, st) ∈ res) ↔
          (i ∈ idxs ∧ ∃ p ∈ device.port_table.getD [], p.port_idx = some i))) := by
  constructor
  · intro h
    unfold hasNoPortTable at h
    unfold get_current_poe_status
    cases hd : device.port_table with
    | none => rfl
    | some tbl =>
      rw [hd] at h
      simp only [Option.getD_some, decide_eq_true_eq] at h
      subst h
      rfl
  · intro h
    unfold hasNoPortTable at h
    cases hd : device.port_table with
    | none => rw [hd] at h; simp at h
    | some tbl =>
      rw [hd] at h
      simp only [Option.getD_some, decide_eq_false_iff_not] at h
      cases tbl with
      | nil => exact absurd rfl h
      | cons p rest =>
        refine ⟨_, by rw [get_current_poe_status, hd], fun i => ?_⟩
        rw [statusFold_mem (p :: rest) idxs [] i]
        simp

/-- Witness for C4: a device whose table holds only port 1, queried for
ports 1 and 9, returns a map whose sole key is 1 and does not raise. -/
theorem get_current_poe_status_keys_witness :
    ∃ res,
      get_current_poe_status ⟨some [⟨some 1, some "off", none, some "P1", some 1⟩]⟩ [1, 9] =
        .ok res ∧
      ∀ i, ((∃ st, (i, st) ∈ res) ↔
        (i ∈ [(1 : Int), 9] ∧
          ∃ p ∈ (Device.mk (some [⟨some 1, some "off", none, some "P1", some 1⟩])).port_table.getD [],
            p.port_idx = some i)) :=
  (get_current_poe_status_keys ⟨some [⟨some 1, some "off", none, some "P1", some 1⟩]⟩ [1, 9]).2
    (by decide)

lemma determine_no_actions (st : List (Int × PortStatus)) (d : String)
    (hrec : isEnableTok d ∨ isDisableTok d)
    (hall : ∀ i s, (i, s) ∈ st → s.poe_caps ≠ 0 → derivedOn s = desiredOn d) :
    determine_set_actions st d = .ok [] := by
  rcases hrec with he | hd
  · rw [determine_set_actions, if_pos he]
    have hnil : st.filterMap (emitAction "auto" "enable" "on") = [] := by
      rw [List.filterMap_eq_nil_iff]
      rintro ⟨i, s⟩ hmem
      unfold emitAction
      by_cases hc : s.poe_caps = 0
      · rw [if_pos hc]
      · have hder := hall i s hmem hc
        have hon : desiredOn d = true := by simp [desiredOn, he]
        rw [hon] at hder
        have hmode : s.current_mode ≠ "off" := by simpa [derivedOn] using hder
        rw [if_neg hc, if_neg hmode, if_pos rfl]
    rw [hnil]
  · have hne : ¬ isEnableTok d := disable_not_enable (pyLower d) hd
    rw [determine_set_actions, if_neg hne, if_pos hd]
    have hnil : st.filterMap (emitAction "off" "disable" "off") = [] := by
      rw [List.filterMap_eq_nil_iff]
      rintro ⟨i, s⟩ hmem
      unfold emitAction
      by_cases hc : s.poe_caps = 0
      · rw [if_pos hc]
      · have hder := hall i s hmem hc
        have hoff : desiredOn d = false := by simp [desiredOn, hne]
        rw [hoff] at hder
        have hmode : s.current_mode = "off" := by simpa [derivedOn] using hder
        rw [if_neg hc, if_pos hmode, if_pos rfl]
    rw [hnil]

/-- Claim C5: when every requested PoE-capable port's derived on/off state
already equals the desired on/off state, `determine_set_actions` returns
the empty list and `main` short-circuits to success: it returns `True` and
its trace shows no confirmation prompt, no set-PoE request and no
verification event — only the session acquisition and release. -/
theorem already_satisfied_short_circuit
    (env : Env) (idxs : List Int) (d : String) (yes : Bool) (device : Device)
    (st : List (Int × PortStatus))
    (hlogin : env.loginOk = true)
    (hdev : env.device = some device)
    (hst : get_current_poe_status device idxs = .ok st)
    (hne : st ≠ [])
    (hrec : isEnableTok d ∨ isDisableTok d)
    (hall : ∀ i s, (i, s) ∈ st → s.poe_caps ≠ 0 → derivedOn s = desiredOn d) :
    determine_set_actions st d = .ok [] ∧
    runMain env idxs d yes = (true, [Event.sessionAcquired, Event.sessionClosed]) := by
  have hacts := determine_no_actions st d hrec hall
  refine ⟨hacts, ?_⟩
  rw [runMain, if_pos hlogin]
  have hbody : mainBody env idxs d yes = (true, []) := by
    rw [mainBody]
    rw [hdev]
    simp [hst, hacts, if_neg hne]
  rw [hbody]
  rfl

/-- Witness for C5: one requested port already `"auto"` with desired state
`"on"`. -/
theorem already_satisfied_short_circuit_witness :
    determine_set_actions [(1, ⟨"P1", "auto", false, 1⟩)] "on" = .ok [] ∧
    runMain ⟨true, some ⟨some [⟨some 1, some "auto", none, some "P1", some 1⟩]⟩, false, true, none⟩
        [1] "on" false =
      (true, [Event.sessionAcquired, Event.sessionClosed]) :=
  already_satisfied_short_circuit
    ⟨true, some ⟨some [⟨some 1, some "auto", none, some "P1", some 1⟩]⟩, false, true, none⟩
    [1] "on" false
    ⟨some [⟨some 1, some "auto", none, some "P1", some 1⟩]⟩
    [(1, ⟨"P1", "auto", false, 1⟩)]
    rfl rfl (by rfl) (by decide) (Or.inl (by decide))
    (by
      intro i s h hc
      rw [List.mem_singleton] at h
      injection h with h1 h2
      subst h1
      subst h2
      rfl)

/-- Claim C8: when the status extraction returns an empty map (no requested
index present in the port table), `main` aborts with `False` — the trace
shows no confirmation prompt and no set-PoE request — and the process exit
code is 1. -/
theorem empty_status_aborts
    (env : Env) (idxs : List Int) (d : String) (yes : Bool) (device : Device)
    (hlogin : env.loginOk = true)
    (hdev : env.device = some device)
    (hst : get_current_poe_status device idxs = .ok []) :
    runMain env idxs d yes = (false, [Event.sessionAcquired, Event.sessionClosed]) ∧
    scriptExitCode env idxs d yes = 1 := by
  have hbody : mainBody env idxs d yes = (false, []) := by
    rw [mainBody]
    rw [hdev]
    simp [hst]
  have hrun : runMain env idxs d yes = (false, [Event.sessionAcquired, Event.sessionClosed]) := by
    rw [runMain, if_pos hlogin, hbody]
    rfl
  refine ⟨hrun, ?_⟩
  rw [scriptExitCode, hrun]
  rfl

/-- Witness for C8: the device's table holds only port 7 while port 1 is
requested, so the status map is empty and the run fails with exit code 1. -/
theorem empty_status_aborts_witness :
    runMain ⟨true, some ⟨some [⟨some 7, some "auto", none, some "P7", some 1⟩]⟩, true, true, none⟩
        [1] "on" true =
      (false, [Event.sessionAcquired, Event.sessionClosed]) ∧
    scriptExitCode
        ⟨true, some ⟨some [⟨some 7, some "auto", none, some "P7", some 1⟩]⟩, true, true, none⟩
        [1] "on" true = 1 :=
  empty_status_aborts
    ⟨true, some ⟨some [⟨some 7, some "auto", none, some "P7", some 1⟩]⟩, true, true, none⟩
    [1] "on" true
    ⟨some [⟨some 7, some "auto", none, some "P7", some 1⟩]⟩
    rfl rfl (by rfl)

/-- Claim C9 is violated by the code: `main` stores the session handle only
after `connect_to_controller` returns, so when login fails inside
`connect_to_controller` (which created the aiohttp session first, line 47),
the `finally` block of lines 287-289 sees `session` still `None` and
closes nothing — the acquired session is never released on that exit path.
Evaluated at such a failing input, the run's trace records the session
acquisition and no session close. -/
theorem login_failure_leaks_session :
    runMain ⟨false, none, false, false, none⟩ [1] "on" true =
      (false, [Event.sessionAcquired]) ∧
    Event.sessionClosed ∉ (runMain ⟨false, none, false, false, none⟩ [1] "on" true).2 := by
  refine ⟨rfl, ?_⟩
  decide

/-- Claim C6: verification is advisory.  Once connect, lookup, status read,
action resolution, confirmation and the apply step have all succeeded,
`main` returns `True` with the verification events appended to the trace —
for every possible re-read device snapshot `env.updatedDevice`, so a
mismatching re-read mode (a `verifyWarn` event) never turns the result
into failure. -/
theorem verification_advisory
    (env : Env) (idxs : List Int) (d : String) (yes : Bool) (device : Device)
    (st : List (Int × PortStatus)) (acts : List (Int × String × String))
    (hlogin : env.loginOk = true)
    (hdev : env.device = some device)
    (hst : get_current_poe_status device idxs = .ok st)
    (hne : st ≠ [])
    (hacts : determine_set_actions st d = .ok acts)
    (hanne : acts ≠ [])
    (hconf : yes = true ∨ env.userConfirms = true)
    (happly : env.applyOk = true) :
    runMain env idxs d yes =
      (true, Event.sessionAcquired ::
        ((if yes then [] else [Event.confirmPrompt]) ++
          Event.setPoeRequest (acts.map (fun a => (a.1, a.2.1))) ::
          verifyEvents env.updatedDevice acts ++ [Event.sessionClosed])) := by
  cases yes with
  | true =>
    have hbody : mainBody env idxs d true = applyPhase env acts [] := by
      rw [mainBody, hdev]
      simp [hst, hacts, if_neg hne, if_neg hanne]
    rw [runMain, if_pos hlogin, hbody, applyPhase, if_pos happly]
    rfl
  | false =>
    have hc : env.userConfirms = true := by
      rcases hconf with h | h
      · exact absurd h (by simp)
      · exact h
    have hbody : mainBody env idxs d false = applyPhase env acts [Event.confirmPrompt] := by
      rw [mainBody, hdev]
      simp [hst, hacts, if_neg hne, if_neg hanne, hc]
    rw [runMain, if_pos hlogin, hbody, applyPhase, if_pos happly]
    rfl

/-- Witness for C6, the §8 verification scenario: after applying
`(1, "auto")` the re-read still shows port 1 as `"off"`; the trace records
the warning `verifyWarn 1 "auto" "off"` and the run result is still
`true`. -/
theorem verification_advisory_witness :
    runMain
        ⟨true, some ⟨some [⟨some 1, some "off", none, some "P1", some 1⟩]⟩, false, true,
          some ⟨some [⟨some 1, some "off", none, some "P1", some 1⟩]⟩⟩
        [1] "on" true =
      (true, [Event.sessionAcquired, Event.setPoeRequest [(1, "auto")],
        Event.verifyWarn 1 "auto" "off", Event.sessionClosed]) :=
  verification_advisory
    ⟨true, some ⟨some [⟨some 1, some "off", none, some "P1", some 1⟩]⟩, false, true,
      some ⟨some [⟨some 1, some "off", none, some "P1", some 1⟩]⟩⟩
    [1] "on" true
    ⟨some [⟨some 1, some "off", none, some "P1", some 1⟩]⟩
    [(1, ⟨"P1", "off", false, 1⟩)]
    [(1, "auto", "enable")]
    rfl rfl (by rfl) (by decide) (by rfl) (by decide) (Or.inl rfl) rfl

lemma filterMap_emit_fst_sublist (ps : List (Int × PortStatus)) (tm ad ts : String) :
    List.Sublist ((ps.filterMap (emitAction tm ad ts)).map (fun a => a.1))
      (ps.map (fun e => e.1)) := by
  induction ps with
  | nil => simp
  | cons e rest ih =>
    rw [List.filterMap_cons]
    cases he : emitAction tm ad ts e with
    | none =>
      simp only [List.map_cons]
      exact ih.cons e.1
    | some a =>
      obtain ⟨i, m, desc⟩ := a
      rw [emitAction_eq_some] at he
      obtain ⟨-, -, rfl, -, -⟩ := he
      simp only [List.map_cons]
      exact ih.cons₂ e.1

/-- Claim C7 as stated is false on the code: `determine_set_actions`
iterates the status dict in insertion order — the device port-table order —
and never sorts.  With a port table listing port 2 before port 1 (both PoE
capable and `"off"`, desired state `"on"`), the status map and the action
list both come out as [2, 1], which is not ascending by port index. -/
theorem determine_set_actions_order_counterexample :
    get_current_poe_status
        ⟨some [⟨some 2, some "off", none, some "P2", some 1⟩,
               ⟨some 1, some "off", none, some "P1", some 1⟩]⟩ [1, 2] =
      .ok [(2, ⟨"P2", "off", false, 1⟩), (1, ⟨"P1", "off", false, 1⟩)] ∧
    determine_set_actions
        [(2, ⟨"P2", "off", false, 1⟩), (1, ⟨"P1", "off", false, 1⟩)] "on" =
      .ok [(2, "auto", "enable"), (1, "auto", "enable")] ∧
    ¬ List.Sorted (· ≤ ·)
        (([(2, "auto", "enable"), (1, "auto", "enable")] :
          List (Int × String × String)).map (fun a => a.1)) :=
  ⟨rfl, rfl, by decide⟩

/-- Claim C7 amended: the action list preserves the port-status map's entry
order (the port-table discovery order) — its port indexes form a sublist of
the status map's keys — so it is ascending by port index whenever the
status map's keys are ascending, but not for an arbitrary port-table
order. -/
theorem determine_set_actions_order_amended
    (ps : List (Int × PortStatus)) (d : String) (acts : List (Int × String × String))
    (h : determine_set_actions ps d = .ok acts) :
    List.Sublist (acts.map (fun a => a.1)) (ps.map (fun e => e.1)) ∧
    (List.Sorted (· ≤ ·) (ps.map (fun e => e.1)) →
      List.Sorted (· ≤ ·) (acts.map (fun a => a.1))) := by
  have hsub : List.Sublist (acts.map (fun a => a.1)) (ps.map (fun e => e.1)) := by
    unfold determine_set_actions at h
    by_cases he : isEnableTok d
    · rw [if_pos he] at h
      simp only [Except.ok.injEq] at h
      rw [← h]
      exact filterMap_emit_fst_sublist ps "auto" "enable" "on"
    · rw [if_neg he] at h
      by_cases hd : isDisableTok d
      · rw [if_pos hd] at h
        simp only [Except.ok.injEq] at h
        rw [← h]
        exact filterMap_emit_fst_sublist ps "off" "disable" "off"
      · rw [if_neg hd] at h
        exact absurd h (by simp)
  exact ⟨hsub, fun hs => List.Pairwise.sublist hsub hs⟩

/-- Witness for the amended C7 at the out-of-order status map [2, 1]. -/
theorem determine_set_actions_order_amended_witness :
    List.Sublist
      (([(2, "auto", "enable"), (1, "auto", "enable")] :
        List (Int × String × String)).map (fun a => a.1))
      (([(2, ⟨"P2", "off", false, 1⟩), (1, ⟨"P1", "off", false, 1⟩)] :
        List (Int × PortStatus)).map (fun e => e.1)) ∧
    (List.Sorted (· ≤ ·)
        (([(2, ⟨"P2", "off", false, 1⟩), (1, ⟨"P1", "off", false, 1⟩)] :
          List (Int × PortStatus)).map (fun e => e.1)) →
      List.Sorted (· ≤ ·)
        (([(2, "auto", "enable"), (1, "auto", "enable")] :
          List (Int × String × String)).map (fun a => a.1))) :=
  determine_set_actions_order_amended
    [(2, ⟨"P2", "off", false, 1⟩), (1, ⟨"P1", "off", false, 1⟩)] "on"
    [(2, "auto", "enable"), (1, "auto", "enable")] rfl
